import Mathlib

/-!
Shallow embedding of broker/util/variant.hh: a tagged union (variant) over three
alternative types, its visitation framework, the comparison operators, the
hashing hook, the copy/move lifecycle, the recursive wrapper, and the overload
resolution performed by the value constructor.  The C++ class is generic in an
arbitrary pack of alternative types; the embedding fixes the arity at three
(the arity of the specification's concrete scenario) and keeps the alternative
types themselves generic.  Dispatch that the C++ code leaves undefined (a
discriminator out of range, for which visit_impl asserts, or a reinterpret_cast
of the storage at a type other than the live one) is modelled as Option.none.
-/

set_option autoImplicit false

namespace BrokerVariant

/-- The raw storage of variant over alternatives T0, T1, T2: one live
alternative.  In the C++ code this is an aligned byte buffer (line 327); the
inductive records which alternative is live together with its value, which is
exactly the information the buffer of a well-formed variant carries. -/
inductive Storage (α β γ : Type) : Type where
  | alt0 : α → Storage α β γ
  | alt1 : β → Storage α β γ
  | alt2 : γ → Storage α β γ
deriving DecidableEq

variable {α β γ : Type} {R : Type}

/-- Index, in declaration order, of the live alternative. -/
def Storage.idx : Storage α β γ → Nat
  | .alt0 _ => 0
  | .alt1 _ => 1
  | .alt2 _ => 2

/-- variant with Tag = size_t: the storage buffer plus the discriminator
(fields storage and active, lines 327-328 of variant.hh). -/
structure Variant (α β γ : Type) : Type where
  storage : Storage α β γ
  active : Nat

/-- Consistency invariant the C++ lifecycle code maintains: the discriminator
equals the index of the alternative that is live in the buffer. -/
def WF (v : Variant α β γ) : Prop := v.active = v.storage.idx

/-- A unary visitor: one call operator per alternative and a single declared
result type, as required of visitors by the C++ framework. -/
structure Visitor (α β γ : Type) (R : Type) : Type where
  on0 : α → R
  on1 : β → R
  on2 : γ → R

/-- Embeds variant::visit_impl (lines 497-515): index the statically built jump
table of callers by the discriminator; the selected entry reinterprets the raw
storage at alternative i and invokes the visitor on the value.  The result is
none when the assert fires (discriminator out of range, lines 508-509) and when
the reinterpretation reads the storage at a type other than the live one. -/
def visit_impl (active : Nat) (s : Storage α β γ) (vis : Visitor α β γ R) : Option R :=
  match active, s with
  | 0, .alt0 a => some (vis.on0 a)
  | 1, .alt1 b => some (vis.on1 b)
  | 2, .alt2 c => some (vis.on2 c)
  | _, _ => none

/-- The condition asserted by visit_impl (lines 508-509): the discriminator is
inside [0, n), with n = 3 alternatives here. -/
def tagInRange (t : Nat) : Prop := t < 3

/-- reinterpret_cast of the storage at alternative 0: defined exactly when
alternative 0 is live. -/
def reinterpret0 : Storage α β γ → Option α
  | .alt0 a => some a
  | _ => none

/-- reinterpret_cast of the storage at alternative 1. -/
def reinterpret1 : Storage α β γ → Option β
  | .alt1 b => some b
  | _ => none

/-- reinterpret_cast of the storage at alternative 2. -/
def reinterpret2 : Storage α β γ → Option γ
  | .alt2 c => some c
  | _ => none

/-- variant::which (lines 231-232): return the discriminator. -/
def which (v : Variant α β γ) : Nat := v.active

/-- The case TT = 0 of initializer::initialize (lines 448-458): construct the
value as alternative 0 in the buffer and set the discriminator to 0. -/
def ofAlt0 (a : α) : Variant α β γ := ⟨.alt0 a, 0⟩

/-- The case TT = 1 of initializer::initialize. -/
def ofAlt1 (b : β) : Variant α β γ := ⟨.alt1 b, 1⟩

/-- The case TT = 2 of initializer::initialize. -/
def ofAlt2 (c : γ) : Variant α β γ := ⟨.alt2 c, 2⟩

/-- detail::getter for alternative 0 (lines 44-54): the address of the value on
an exact match of the alternative type, nullptr on every other alternative; the
inner Option is the returned pointer. -/
def getter0 : Visitor α β γ (Option α) := ⟨fun a => some a, fun _ => none, fun _ => none⟩

/-- detail::getter for alternative 1. -/
def getter1 : Visitor α β γ (Option β) := ⟨fun _ => none, fun b => some b, fun _ => none⟩

/-- detail::getter for alternative 2. -/
def getter2 : Visitor α β γ (Option γ) := ⟨fun _ => none, fun _ => none, fun c => some c⟩

/-- get at alternative type T0 (lines 690-692): apply the getter visitor to the
exposed variant (expose is the identity on variants, lines 662-664). -/
def get0 (v : Variant α β γ) : Option (Option α) := visit_impl v.active v.storage getter0

/-- get at alternative type T1. -/
def get1 (v : Variant α β γ) : Option (Option β) := visit_impl v.active v.storage getter1

/-- get at alternative type T2. -/
def get2 (v : Variant α β γ) : Option (Option γ) := visit_impl v.active v.storage getter2

/-- is at alternative type T0 (lines 707-709): get returned a non-null pointer. -/
def is0 (v : Variant α β γ) : Option Bool := (get0 v).map Option.isSome

/-- is at alternative type T1. -/
def is1 (v : Variant α β γ) : Option Bool := (get1 v).map Option.isSome

/-- is at alternative type T2. -/
def is2 (v : Variant α β γ) : Option Bool := (get2 v).map Option.isSome

/-- variant::make (lines 225-226) via the private constructor
variant(factory, t) (lines 519-521): set the discriminator to t, then dispatch
default_ctor (lines 330-340) through the jump table, which default-constructs
alternative t in the buffer.  Out of range, the assert in visit_impl fires:
none.  Inhabited supplies the default construction T() of each alternative. -/
def make [Inhabited α] [Inhabited β] [Inhabited γ] (t : Nat) : Option (Variant α β γ) :=
  match t with
  | 0 => some ⟨.alt0 default, 0⟩
  | 1 => some ⟨.alt1 default, 1⟩
  | 2 => some ⟨.alt2 default, 2⟩
  | _ => none

/-- variant::equals (lines 548-558), dispatched over y with self = x: the
overload at y's active type Rhs reinterprets x's storage at Rhs and compares
with the == of that alternative type. -/
def equalsVis [DecidableEq α] [DecidableEq β] [DecidableEq γ] (x : Variant α β γ) :
    Visitor α β γ (Option Bool) :=
  ⟨fun r => (reinterpret0 x.storage).map (fun l => decide (l = r)),
   fun r => (reinterpret1 x.storage).map (fun l => decide (l = r)),
   fun r => (reinterpret2 x.storage).map (fun l => decide (l = r))⟩

/-- operator== on variants (lines 572-573): the discriminators are equal
(short-circuiting and) and the equals visitor dispatched over y returns true. -/
def variantEq [DecidableEq α] [DecidableEq β] [DecidableEq γ] (x y : Variant α β γ) :
    Option Bool :=
  if x.active = y.active then (visit_impl y.active y.storage (equalsVis x)).join
  else some false

/-- variant::less_than (lines 560-570), dispatched over y with self = x. -/
def lessVis [LinearOrder α] [LinearOrder β] [LinearOrder γ] (x : Variant α β γ) :
    Visitor α β γ (Option Bool) :=
  ⟨fun r => (reinterpret0 x.storage).map (fun l => decide (l < r)),
   fun r => (reinterpret1 x.storage).map (fun l => decide (l < r)),
   fun r => (reinterpret2 x.storage).map (fun l => decide (l < r))⟩

/-- operator< on variants (lines 575-581): same discriminator, dispatch the
less_than visitor over y; different discriminators, compare the discriminators
themselves. -/
def variantLt [LinearOrder α] [LinearOrder β] [LinearOrder γ] (x y : Variant α β γ) :
    Option Bool :=
  if x.active = y.active then (visit_impl y.active y.storage (lessVis x)).join
  else some (decide (x.active < y.active))

/-- Modelled from the spec: operators.hh (the totally_ordered mixin named at
line 202) is not under src; per the spec it supplies the <=, >, >=, !=
operators from a type's own == and <, in the standard idiom.  Here: x <= y is
the negation of y < x. -/
def variantLe [LinearOrder α] [LinearOrder β] [LinearOrder γ] (x y : Variant α β γ) :
    Option Bool :=
  (variantLt y x).map (fun b => !b)

/-- Modelled from the spec: x > y is y < x (totally_ordered mixin). -/
def variantGt [LinearOrder α] [LinearOrder β] [LinearOrder γ] (x y : Variant α β γ) :
    Option Bool :=
  variantLt y x

/-- Modelled from the spec: x >= y is the negation of x < y (totally_ordered
mixin). -/
def variantGe [LinearOrder α] [LinearOrder β] [LinearOrder γ] (x y : Variant α β γ) :
    Option Bool :=
  (variantLt x y).map (fun b => !b)

/-- Modelled from the spec: x != y is the negation of x == y (totally_ordered
mixin). -/
def variantNe [DecidableEq α] [DecidableEq β] [DecidableEq γ] (x y : Variant α β γ) :
    Option Bool :=
  (variantEq x y).map (fun b => !b)

/-- Value equality of two storages holding the same live alternative, through
that alternative type's own equality; False across distinct alternatives.
Specification vocabulary for the equality claims. -/
def storEq [DecidableEq α] [DecidableEq β] [DecidableEq γ] :
    Storage α β γ → Storage α β γ → Prop
  | .alt0 a, .alt0 a2 => a = a2
  | .alt1 b, .alt1 b2 => b = b2
  | .alt2 c, .alt2 c2 => c = c2
  | _, _ => False

/-- Value ordering of two storages holding the same live alternative, through
that alternative type's own ordering; False across distinct alternatives.
Specification vocabulary for the ordering claims. -/
def storLt [LinearOrder α] [LinearOrder β] [LinearOrder γ] :
    Storage α β γ → Storage α β γ → Prop
  | .alt0 a, .alt0 a2 => a < a2
  | .alt1 b, .alt1 b2 => b < b2
  | .alt2 c, .alt2 c2 => c < c2
  | _, _ => False

section EqLemmas

variable [DecidableEq α] [DecidableEq β] [DecidableEq γ]

theorem storEq_iff_eq {s t : Storage α β γ} : storEq s t ↔ s = t := by
  cases s <;> cases t <;> simp [storEq]

theorem variantEq_char {x y : Variant α β γ} (hx : WF x) (hy : WF y) :
    variantEq x y = some true ↔ (which x = which y ∧ storEq x.storage y.storage) := by
  obtain ⟨s, t⟩ := x
  obtain ⟨s2, t2⟩ := y
  simp only [WF, Storage.idx] at hx hy
  subst hx
  subst hy
  cases s <;> cases s2 <;>
    simp [variantEq, which, visit_impl, equalsVis, Storage.idx,
          reinterpret0, reinterpret1, reinterpret2, storEq]

theorem variantEq_isSome {x y : Variant α β γ} (hx : WF x) (hy : WF y) :
    (variantEq x y).isSome := by
  obtain ⟨s, t⟩ := x
  obtain ⟨s2, t2⟩ := y
  simp only [WF, Storage.idx] at hx hy
  subst hx
  subst hy
  cases s <;> cases s2 <;>
    simp [variantEq, visit_impl, equalsVis, Storage.idx,
          reinterpret0, reinterpret1, reinterpret2]

end EqLemmas

section Lemmas

variable [LinearOrder α] [LinearOrder β] [LinearOrder γ]

theorem storLt_idx {s t : Storage α β γ} (h : storLt s t) : s.idx = t.idx := by
  cases s <;> cases t <;> first | rfl | exact h.elim

theorem storLt_trans {s t u : Storage α β γ} (h1 : storLt s t) (h2 : storLt t u) :
    storLt s u := by
  cases s <;> cases t <;> cases u <;>
    first
    | exact h1.elim
    | exact h2.elim
    | exact lt_trans h1 h2

theorem storLt_asymm {s t : Storage α β γ} (h1 : storLt s t) (h2 : storLt t s) : False := by
  cases s <;> cases t <;>
    first
    | exact h1.elim
    | exact lt_asymm h1 h2

theorem storLt_irrefl (s : Storage α β γ) : ¬ storLt s s := by
  cases s <;> exact lt_irrefl _

theorem stor_trichotomy {s t : Storage α β γ} (h : s.idx = t.idx) :
    storLt s t ∨ storEq s t ∨ storLt t s := by
  cases s <;> cases t <;> simp [Storage.idx] at h <;> simp [storLt, storEq] <;>
    exact lt_trichotomy _ _

theorem variantLt_char {x y : Variant α β γ} (hx : WF x) (hy : WF y) :
    variantLt x y = some true ↔
      (which x < which y ∨ (which x = which y ∧ storLt x.storage y.storage)) := by
  obtain ⟨s, t⟩ := x
  obtain ⟨s2, t2⟩ := y
  simp only [WF, Storage.idx] at hx hy
  subst hx
  subst hy
  cases s <;> cases s2 <;>
    simp [variantLt, which, visit_impl, lessVis, Storage.idx,
          reinterpret0, reinterpret1, reinterpret2, storLt]

theorem variantLt_isSome {x y : Variant α β γ} (hx : WF x) (hy : WF y) :
    (variantLt x y).isSome := by
  obtain ⟨s, t⟩ := x
  obtain ⟨s2, t2⟩ := y
  simp only [WF, Storage.idx] at hx hy
  subst hx
  subst hy
  cases s <;> cases s2 <;>
    simp [variantLt, visit_impl, lessVis, Storage.idx,
          reinterpret0, reinterpret1, reinterpret2]

theorem variantLt_self {x : Variant α β γ} (hx : WF x) : variantLt x x = some false := by
  obtain ⟨s, t⟩ := x
  simp only [WF, Storage.idx] at hx
  subst hx
  cases s <;>
    simp [variantLt, visit_impl, lessVis, Storage.idx,
          reinterpret0, reinterpret1, reinterpret2]

theorem variant_trichotomy {x y : Variant α β γ} (hx : WF x) (hy : WF y) :
    variantLt x y = some true ∨ variantEq x y = some true ∨ variantLt y x = some true := by
  rcases Nat.lt_trichotomy (which x) (which y) with h | h | h
  · exact Or.inl ((variantLt_char hx hy).2 (Or.inl h))
  · have hidx : x.storage.idx = y.storage.idx := by
      have h1 : x.active = x.storage.idx := hx
      have h2 : y.active = y.storage.idx := hy
      simp only [which] at h
      omega
    rcases stor_trichotomy hidx with hs | hs | hs
    · exact Or.inl ((variantLt_char hx hy).2 (Or.inr ⟨h, hs⟩))
    · exact Or.inr (Or.inl ((variantEq_char hx hy).2 ⟨h, hs⟩))
    · exact Or.inr (Or.inr ((variantLt_char hy hx).2 (Or.inr ⟨h.symm, hs⟩)))
  · exact Or.inr (Or.inr ((variantLt_char hy hx).2 (Or.inl h)))

theorem variantLt_asymm {x y : Variant α β γ} (hx : WF x) (hy : WF y)
    (h1 : variantLt x y = some true) (h2 : variantLt y x = some true) : False := by
  rw [variantLt_char hx hy] at h1
  rw [variantLt_char hy hx] at h2
  rcases h1 with h1 | ⟨e1, l1⟩ <;> rcases h2 with h2 | ⟨e2, l2⟩
  · omega
  · omega
  · omega
  · exact storLt_asymm l1 l2

theorem variantEq_not_lt {x y : Variant α β γ} (hx : WF x) (hy : WF y)
    (h1 : variantEq x y = some true) (h2 : variantLt y x = some true) : False := by
  rw [variantEq_char hx hy] at h1
  rw [variantLt_char hy hx] at h2
  rcases h2 with h2 | ⟨e2, l2⟩
  · omega
  · rw [storEq_iff_eq] at *
    exact storLt_irrefl _ (h1.2 ▸ l2)

end Lemmas

/-- Bundles the conclusion of the ordering claim: the discriminator decides the
order when discriminators differ, the active alternative type's own ordering
decides it when they agree, the order is irreflexive, transitive and
trichotomous with equality, and the mixin-derived operators agree with the
order derived from == and <. -/
def OrderSpec [LinearOrder α] [LinearOrder β] [LinearOrder γ] (x y z : Variant α β γ) : Prop :=
  (which x ≠ which y → variantLt x y = some (decide (which x < which y))) ∧
  (which x = which y → (variantLt x y = some true ↔ storLt x.storage y.storage)) ∧
  variantLt x x = some false ∧
  (variantLt x y = some true → variantLt y z = some true → variantLt x z = some true) ∧
  (variantLt x y = some true ∨ variantEq x y = some true ∨ variantLt y x = some true) ∧
  (variantLe x y = some true ↔ (variantLt x y = some true ∨ variantEq x y = some true)) ∧
  variantGt x y = variantLt y x ∧
  variantGe x y = (variantLt x y).map (fun b => !b) ∧
  variantNe x y = (variantEq x y).map (fun b => !b)

/-- C1: constructing a variant from a value of alternative type T yields which
equal to T's declared discriminator, is at T true, get at T a non-null pointer
to a value equal to the one given, and get at every other alternative U null;
and on a well-formed variant get never fails, it only returns presence or
absence. -/
theorem round_trip_get_is_which :
    (∀ a : α, which (ofAlt0 a : Variant α β γ) = 0 ∧
      get0 (ofAlt0 a : Variant α β γ) = some (some a) ∧
      is0 (ofAlt0 a : Variant α β γ) = some true ∧
      get1 (ofAlt0 a : Variant α β γ) = some none ∧
      get2 (ofAlt0 a : Variant α β γ) = some none) ∧
    (∀ b : β, which (ofAlt1 b : Variant α β γ) = 1 ∧
      get1 (ofAlt1 b : Variant α β γ) = some (some b) ∧
      is1 (ofAlt1 b : Variant α β γ) = some true ∧
      get0 (ofAlt1 b : Variant α β γ) = some none ∧
      get2 (ofAlt1 b : Variant α β γ) = some none) ∧
    (∀ c : γ, which (ofAlt2 c : Variant α β γ) = 2 ∧
      get2 (ofAlt2 c : Variant α β γ) = some (some c) ∧
      is2 (ofAlt2 c : Variant α β γ) = some true ∧
      get0 (ofAlt2 c : Variant α β γ) = some none ∧
      get1 (ofAlt2 c : Variant α β γ) = some none) ∧
    (∀ v : Variant α β γ, WF v →
      (get0 v).isSome ∧ (get1 v).isSome ∧ (get2 v).isSome) := by
  refine ⟨fun a => ⟨rfl, rfl, rfl, rfl, rfl⟩,
          fun b => ⟨rfl, rfl, rfl, rfl, rfl⟩,
          fun c => ⟨rfl, rfl, rfl, rfl, rfl⟩, ?_⟩
  rintro ⟨s, t⟩ hw
  simp only [WF, Storage.idx] at hw
  subst hw
  cases s <;> simp [get0, get1, get2, visit_impl, getter0, getter1, getter2, Storage.idx]

/-- Witness for C1 at the concrete alternative set Bool, Int, String. -/
theorem round_trip_get_is_which_witness :
    WF (ofAlt1 (5 : Int) : Variant Bool Int String) ∧
    ((get0 (ofAlt1 (5 : Int) : Variant Bool Int String)).isSome ∧
     (get1 (ofAlt1 (5 : Int) : Variant Bool Int String)).isSome ∧
     (get2 (ofAlt1 (5 : Int) : Variant Bool Int String)).isSome) :=
  ⟨rfl, round_trip_get_is_which.2.2.2 _ rfl⟩

/-- C2: two variants of the same variant type are equal exactly when their
discriminators are equal and their active values compare equal through the
active alternative type's own equality; the comparison itself is always
defined on well-formed variants. -/
theorem eq_iff_tag_and_value [LinearOrder α] [LinearOrder β] [LinearOrder γ]
    (x y : Variant α β γ) (hx : WF x) (hy : WF y) :
    (variantEq x y = some true ↔ (which x = which y ∧ storEq x.storage y.storage)) ∧
    (variantEq x y).isSome :=
  ⟨variantEq_char hx hy, variantEq_isSome hx hy⟩

/-- Witness for C2: equal and unequal concrete variants over Bool, Int, String. -/
theorem eq_iff_tag_and_value_witness :
    WF (ofAlt1 (5 : Int) : Variant Bool Int String) ∧
    ((variantEq (ofAlt1 (5 : Int) : Variant Bool Int String) (ofAlt1 (5 : Int)) = some true ↔
      (which (ofAlt1 (5 : Int) : Variant Bool Int String) = which (ofAlt1 (5 : Int) : Variant Bool Int String) ∧
       storEq (Storage.alt1 (5 : Int) : Storage Bool Int String) (Storage.alt1 (5 : Int)))) ∧
     (variantEq (ofAlt1 (5 : Int) : Variant Bool Int String) (ofAlt1 (5 : Int))).isSome) :=
  ⟨rfl, eq_iff_tag_and_value _ _ rfl rfl⟩

/-- C3: when discriminators differ, the order of two variants is decided by the
discriminator ordering alone; when they agree, by the active alternative
type's own ordering; the resulting order is irreflexive, transitive (in
particular across pairwise distinct discriminators) and trichotomous, and the
operators derived by the mixin agree with == and <. -/
theorem lt_total_order [LinearOrder α] [LinearOrder β] [LinearOrder γ]
    (x y z : Variant α β γ) (hx : WF x) (hy : WF y) (hz : WF z) :
    OrderSpec x y z := by
  refine ⟨?_, ?_, variantLt_self hx, ?_, variant_trichotomy hx hy, ?_, rfl, rfl, rfl⟩
  · intro h
    simp only [which] at h
    simp only [variantLt, if_neg h, which]
  · intro h
    rw [variantLt_char hx hy]
    simp [h]
  · intro h1 h2
    rw [variantLt_char hx hy] at h1
    rw [variantLt_char hy hz] at h2
    rw [variantLt_char hx hz]
    rcases h1 with h1 | ⟨e1, l1⟩ <;> rcases h2 with h2 | ⟨e2, l2⟩
    · exact Or.inl (lt_trans h1 h2)
    · exact Or.inl (by omega)
    · exact Or.inl (by omega)
    · exact Or.inr ⟨e1.trans e2, storLt_trans l1 l2⟩
  · constructor
    · intro hle
      rcases variant_trichotomy hx hy with h | h | h
      · exact Or.inl h
      · exact Or.inr h
      · exfalso
        rw [variantLe, h] at hle
        simp at hle
    · intro h
      rcases hmem : variantLt y x with _ | b
      · have := variantLt_isSome hy hx
        rw [hmem] at this
        cases this
      · rw [variantLe, hmem]
        rcases b with _ | _
        · rfl
        · exfalso
          rcases h with h | h
          · exact variantLt_asymm hx hy h hmem
          · exact variantEq_not_lt hx hy h hmem

/-- Witness for C3 at concrete variants over Bool, Int, String. -/
theorem lt_total_order_witness :
    WF (ofAlt0 true : Variant Bool Int String) ∧
    WF (ofAlt1 (5 : Int) : Variant Bool Int String) ∧
    WF (ofAlt2 "a" : Variant Bool Int String) ∧
    OrderSpec (ofAlt0 true : Variant Bool Int String) (ofAlt1 (5 : Int)) (ofAlt2 "a") :=
  ⟨rfl, rfl, rfl, lt_total_order _ _ _ rfl rfl rfl⟩

/-- variant::assigner (lines 370-396), dispatched over the source with self the
destination and rhsActive the source's discriminator.  Alternative copy
construction and copy assignment may fail (the C++ copy operations may throw);
they are the Except-valued parameters cp and asg, one per alternative.  On the
same discriminator the live value is copy-assigned in place (a failure leaves
the destination's previous value, collapsing the C++ valid-but-unspecified
state to it); on different discriminators a temporary copy of the source value
is made first, and only when that copy succeeds is the old alternative
destructed and the new one move-constructed from the temporary (destructors
and moves are statically required not to throw, lines 379-382).  The result
pairs the destination state with the propagated failure, if any. -/
def assignerVis {E : Type} (cpA : α → Except E α) (cpB : β → Except E β) (cpC : γ → Except E γ)
    (asgA : α → α → Except E α) (asgB : β → β → Except E β) (asgC : γ → γ → Except E γ)
    (self : Variant α β γ) (rhsActive : Nat) :
    Visitor α β γ (Option (Variant α β γ × Option E)) :=
  ⟨fun r =>
      if self.active = rhsActive then
        (reinterpret0 self.storage).map (fun old =>
          match asgA old r with
          | .error e => (self, some e)
          | .ok v2 => ((⟨.alt0 v2, self.active⟩ : Variant α β γ), none))
      else
        some (match cpA r with
          | .error e => (self, some e)
          | .ok tmp => ((⟨.alt0 tmp, self.active⟩ : Variant α β γ), none)),
   fun r =>
      if self.active = rhsActive then
        (reinterpret1 self.storage).map (fun old =>
          match asgB old r with
          | .error e => (self, some e)
          | .ok v2 => ((⟨.alt1 v2, self.active⟩ : Variant α β γ), none))
      else
        some (match cpB r with
          | .error e => (self, some e)
          | .ok tmp => ((⟨.alt1 tmp, self.active⟩ : Variant α β γ), none)),
   fun r =>
      if self.active = rhsActive then
        (reinterpret2 self.storage).map (fun old =>
          match asgC old r with
          | .error e => (self, some e)
          | .ok v2 => ((⟨.alt2 v2, self.active⟩ : Variant α β γ), none))
      else
        some (match cpC r with
          | .error e => (self, some e)
          | .ok tmp => ((⟨.alt2 tmp, self.active⟩ : Variant α β γ), none))⟩

/-- variant::operator=(const variant&) (lines 288-293): dispatch the assigner
over rhs, then set the discriminator to rhs's discriminator; a propagated
failure returns to the caller before that update. -/
def copyAssignOp {E : Type} (cpA : α → Except E α) (cpB : β → Except E β) (cpC : γ → Except E γ)
    (asgA : α → α → Except E α) (asgB : β → β → Except E β) (asgC : γ → γ → Except E γ)
    (self rhs : Variant α β γ) : Option (Variant α β γ × Option E) :=
  ((visit_impl rhs.active rhs.storage
      (assignerVis cpA cpB cpC asgA asgB asgC self rhs.active)).join).map
    (fun p =>
      match p.2 with
      | some _ => p
      | none => ((⟨p.1.storage, rhs.active⟩ : Variant α β γ), none))

/-- detail::hasher (lines 56-62), with std::hash of each alternative type
supplied as hA, hB, hC, composed with std::hash of the variant (lines
729-738): visit the hasher over the active value.  The discriminator does not
enter the computation. -/
def hashVariant (hA : α → Nat) (hB : β → Nat) (hC : γ → Nat) (v : Variant α β γ) : Option Nat :=
  visit_impl v.active v.storage ⟨hA, hB, hC⟩

/-- A binary visitor: one call operator per ordered pair of alternatives and a
single declared result type. -/
structure Visitor2 (α β γ : Type) (R : Type) : Type where
  on00 : α → α → R
  on01 : α → β → R
  on02 : α → γ → R
  on10 : β → α → R
  on11 : β → β → R
  on12 : β → γ → R
  on20 : γ → α → R
  on21 : γ → β → R
  on22 : γ → γ → R

/-- detail::binary_visitor (lines 102-123) with the n-ary visitor vis and the
first variant v bound: its call operator, invoked with the second variant's
concrete value, dispatches v.apply with vis and that value, so vis receives
v's concrete active value first and the given value second. -/
def binary_visitor (vis : Visitor2 α β γ R) (v : Variant α β γ) : Visitor α β γ (Option R) :=
  ⟨fun r => visit_impl v.active v.storage
      ⟨fun a => vis.on00 a r, fun b => vis.on10 b r, fun c => vis.on20 c r⟩,
   fun r => visit_impl v.active v.storage
      ⟨fun a => vis.on01 a r, fun b => vis.on11 b r, fun c => vis.on21 c r⟩,
   fun r => visit_impl v.active v.storage
      ⟨fun a => vis.on02 a r, fun b => vis.on12 b r, fun c => vis.on22 c r⟩⟩

/-- apply_visitor on two variants (lines 647-652): curry by binding vis and the
first variant v into the binary visitor, then dispatch it over the second. -/
def apply_visitor2 (vis : Visitor2 α β γ R) (v w : Variant α β γ) : Option R :=
  (visit_impl w.active w.storage (binary_visitor vis v)).join

/-- variant::move_ctor (lines 354-368) dispatched internally over other, then
active set from other (variant(variant&&), lines 277-281): the new variant is
move-constructed from other's live value; other's buffer keeps a live,
moved-from instance of the same alternative (the residue functions mv model
the moved-from state each alternative type's move leaves behind) and other's
tag field is never written.  Returns (constructed variant, other afterwards). -/
def moveCtorOp (mvA : α → α) (mvB : β → β) (mvC : γ → γ) (other : Variant α β γ) :
    Option (Variant α β γ × Variant α β γ) :=
  visit_impl other.active other.storage
    ⟨fun a => ((⟨.alt0 a, other.active⟩ : Variant α β γ),
               (⟨.alt0 (mvA a), other.active⟩ : Variant α β γ)),
     fun b => ((⟨.alt1 b, other.active⟩ : Variant α β γ),
               (⟨.alt1 (mvB b), other.active⟩ : Variant α β γ)),
     fun c => ((⟨.alt2 c, other.active⟩ : Variant α β γ),
               (⟨.alt2 (mvC c), other.active⟩ : Variant α β γ))⟩

/-- variant::move_assigner (lines 398-426) dispatched over rhs, then active set
from rhs (operator=(variant&&), lines 300-305).  Same discriminator:
move-assign into the live destination value (the reinterpretation of the
destination storage at that type must be defined); different discriminators:
destruct the old alternative and move-construct the new one.  rhs's buffer
keeps a moved-from instance of the same alternative and rhs's tag field is
never written.  Returns (destination afterwards, rhs afterwards). -/
def moveAssignOp (mvA : α → α) (mvB : β → β) (mvC : γ → γ) (self rhs : Variant α β γ) :
    Option (Variant α β γ × Variant α β γ) :=
  ((visit_impl rhs.active rhs.storage
      ⟨fun r =>
          if self.active = rhs.active then
            (reinterpret0 self.storage).map (fun _ =>
              ((⟨.alt0 r, self.active⟩ : Variant α β γ),
               (⟨.alt0 (mvA r), rhs.active⟩ : Variant α β γ)))
          else
            some ((⟨.alt0 r, self.active⟩ : Variant α β γ),
                  (⟨.alt0 (mvA r), rhs.active⟩ : Variant α β γ)),
       fun r =>
          if self.active = rhs.active then
            (reinterpret1 self.storage).map (fun _ =>
              ((⟨.alt1 r, self.active⟩ : Variant α β γ),
               (⟨.alt1 (mvB r), rhs.active⟩ : Variant α β γ)))
          else
            some ((⟨.alt1 r, self.active⟩ : Variant α β γ),
                  (⟨.alt1 (mvB r), rhs.active⟩ : Variant α β γ)),
       fun r =>
          if self.active = rhs.active then
            (reinterpret2 self.storage).map (fun _ =>
              ((⟨.alt2 r, self.active⟩ : Variant α β γ),
               (⟨.alt2 (mvC r), rhs.active⟩ : Variant α β γ)))
          else
            some ((⟨.alt2 r, self.active⟩ : Variant α β γ),
                  (⟨.alt2 (mvC r), rhs.active⟩ : Variant α β γ))⟩).join).map
    (fun p => ((⟨p.1.storage, rhs.active⟩ : Variant α β γ), p.2))

/-- C4: copy assignment is atomic with respect to failure: when the source's
discriminator differs from the destination's and the copy construction of the
source's alternative value fails, the failure propagates unchanged and the
destination is returned exactly as it was, previous alternative, previous
value and previous discriminator included. -/
theorem copy_assign_failure_atomic {E : Type}
    (cpA : α → Except E α) (cpB : β → Except E β) (cpC : γ → Except E γ)
    (asgA : α → α → Except E α) (asgB : β → β → Except E β) (asgC : γ → γ → Except E γ) :
    (∀ (a : α) (e : E) (self : Variant α β γ), cpA a = .error e → WF self →
      which self ≠ 0 →
      copyAssignOp cpA cpB cpC asgA asgB asgC self (ofAlt0 a) = some (self, some e)) ∧
    (∀ (b : β) (e : E) (self : Variant α β γ), cpB b = .error e → WF self →
      which self ≠ 1 →
      copyAssignOp cpA cpB cpC asgA asgB asgC self (ofAlt1 b) = some (self, some e)) ∧
    (∀ (c : γ) (e : E) (self : Variant α β γ), cpC c = .error e → WF self →
      which self ≠ 2 →
      copyAssignOp cpA cpB cpC asgA asgB asgC self (ofAlt2 c) = some (self, some e)) := by
  refine ⟨?_, ?_, ?_⟩ <;>
    (intro v e self hcp _hwf hne;
     simp only [which] at hne;
     simp [copyAssignOp, visit_impl, assignerVis, ofAlt0, ofAlt1, ofAlt2, if_neg hne, hcp])

/-- Witness for C4: a concrete destination holding Bool true, a source holding
Int 5 whose copy fails with error 7; the assignment returns the destination
untouched together with that error. -/
theorem copy_assign_failure_atomic_witness :
    (fun _ : Int => (Except.error 7 : Except Nat Int)) 5 = .error 7 ∧
    WF (ofAlt0 true : Variant Bool Int String) ∧
    which (ofAlt0 true : Variant Bool Int String) ≠ 1 ∧
    copyAssignOp (fun a => .ok a) (fun _ : Int => (Except.error 7 : Except Nat Int))
      (fun c => .ok c) (fun _ a => .ok a) (fun _ b => .ok b) (fun _ c => .ok c)
      (ofAlt0 true : Variant Bool Int String) (ofAlt1 5) =
      some (ofAlt0 true, some 7) :=
  ⟨rfl, rfl, by decide,
   (copy_assign_failure_atomic (fun a => .ok a) (fun _ : Int => (Except.error 7 : Except Nat Int))
      (fun c => .ok c) (fun _ a => .ok a) (fun _ b => .ok b) (fun _ c => .ok c)).2.1
     5 7 (ofAlt0 true) rfl rfl (by decide)⟩

/-- C6: for every tag t in [0, n), make t yields the variant whose active
alternative is the alternative at index t, default-initialized, with which
equal to t; a dispatch whose discriminator is outside [0, n) trips the
assertion in visit_impl and yields no result, for any storage and visitor; and
on a well-formed variant the asserted condition holds and dispatch is
defined. -/
theorem make_and_dispatch_assert [Inhabited α] [Inhabited β] [Inhabited γ]
    (vis : Visitor α β γ R) :
    (make 0 = some (ofAlt0 (default : α) : Variant α β γ) ∧
     make 1 = some (ofAlt1 (default : β) : Variant α β γ) ∧
     make 2 = some (ofAlt2 (default : γ) : Variant α β γ)) ∧
    (∀ t : Nat, tagInRange t →
      ∃ v : Variant α β γ, make t = some v ∧ which v = t ∧ WF v) ∧
    (∀ t : Nat, ¬ tagInRange t → (make t : Option (Variant α β γ)) = none) ∧
    (∀ (t : Nat) (s : Storage α β γ), ¬ tagInRange t → visit_impl t s vis = none) ∧
    (∀ v : Variant α β γ, WF v →
      tagInRange (which v) ∧ (visit_impl v.active v.storage vis).isSome) := by
  refine ⟨⟨rfl, rfl, rfl⟩, ?_, ?_, ?_, ?_⟩
  · intro t ht
    simp only [tagInRange] at ht
    match t, ht with
    | 0, _ => exact ⟨_, rfl, rfl, rfl⟩
    | 1, _ => exact ⟨_, rfl, rfl, rfl⟩
    | 2, _ => exact ⟨_, rfl, rfl, rfl⟩
  · intro t ht
    simp only [tagInRange] at ht
    match t with
    | n + 3 => rfl
    | 0 => exact absurd (by omega) ht
    | 1 => exact absurd (by omega) ht
    | 2 => exact absurd (by omega) ht
  · intro t s ht
    simp only [tagInRange] at ht
    match t with
    | n + 3 => cases s <;> rfl
    | 0 => exact absurd (by omega) ht
    | 1 => exact absurd (by omega) ht
    | 2 => exact absurd (by omega) ht
  · rintro ⟨s, t⟩ hw
    simp only [WF, Storage.idx] at hw
    subst hw
    cases s <;> exact ⟨by simp [tagInRange, which, Storage.idx], rfl⟩

/-- Witness for C6 over Bool, Int, String: tag 1 is in range and produces the
default Int alternative; tag 5 is out of range and make yields nothing. -/
theorem make_and_dispatch_assert_witness :
    tagInRange 1 ∧
    (∃ v : Variant Bool Int String, make 1 = some v ∧ which v = 1 ∧ WF v) ∧
    ¬ tagInRange 5 ∧
    (make 5 : Option (Variant Bool Int String)) = none :=
  ⟨by simp only [tagInRange]; omega,
   (make_and_dispatch_assert getter0).2.1 1 (by simp only [tagInRange]; omega),
   by simp only [tagInRange]; omega,
   (make_and_dispatch_assert getter0).2.2.1 5 (by simp only [tagInRange]; omega)⟩

/-- C7: the hash of a variant is the hash of its active value only, computed by
visiting the active value with the generic hashing visitor; the discriminator
is not mixed in; consequently equal variants hash equal. -/
theorem hash_of_active_value [DecidableEq α] [DecidableEq β] [DecidableEq γ]
    (hA : α → Nat) (hB : β → Nat) (hC : γ → Nat) :
    (∀ a : α, hashVariant hA hB hC (ofAlt0 a : Variant α β γ) = some (hA a)) ∧
    (∀ b : β, hashVariant hA hB hC (ofAlt1 b : Variant α β γ) = some (hB b)) ∧
    (∀ c : γ, hashVariant hA hB hC (ofAlt2 c : Variant α β γ) = some (hC c)) ∧
    (∀ v1 v2 : Variant α β γ, WF v1 → WF v2 → variantEq v1 v2 = some true →
      hashVariant hA hB hC v1 = hashVariant hA hB hC v2) := by
  refine ⟨fun a => rfl, fun b => rfl, fun c => rfl, ?_⟩
  intro v1 v2 h1 h2 he
  rw [variantEq_char h1 h2] at he
  obtain ⟨htag, hval⟩ := he
  rw [storEq_iff_eq] at hval
  simp only [which] at htag
  simp only [hashVariant, htag, hval]

/-- Witness for C7: equal concrete variants over Bool, Int, String hash equal
under concrete per-alternative hash functions. -/
theorem hash_of_active_value_witness :
    WF (ofAlt1 (5 : Int) : Variant Bool Int String) ∧
    variantEq (ofAlt1 (5 : Int) : Variant Bool Int String) (ofAlt1 (5 : Int)) = some true ∧
    hashVariant (fun b => cond b 1 0) Int.natAbs String.length
      (ofAlt1 (5 : Int) : Variant Bool Int String) =
    hashVariant (fun b => cond b 1 0) Int.natAbs String.length (ofAlt1 (5 : Int)) :=
  ⟨rfl, by decide,
   (hash_of_active_value (fun b => cond b 1 0) Int.natAbs String.length).2.2.2
     (ofAlt1 5) (ofAlt1 5) rfl rfl (by decide)⟩

/-- C8: visiting two variants dispatches by currying through the binary
visitor, so that for every ordered pair of active alternatives the binary
visitor's matching overload is invoked with exactly the two concrete active
values: all nine combinations over a three-alternative variant. -/
theorem binary_visit_all_pairs (vis : Visitor2 α β γ R)
    (a a2 : α) (b b2 : β) (c c2 : γ) :
    apply_visitor2 vis (ofAlt0 a) (ofAlt0 a2) = some (vis.on00 a a2) ∧
    apply_visitor2 vis (ofAlt0 a) (ofAlt1 b2) = some (vis.on01 a b2) ∧
    apply_visitor2 vis (ofAlt0 a) (ofAlt2 c2) = some (vis.on02 a c2) ∧
    apply_visitor2 vis (ofAlt1 b) (ofAlt0 a2) = some (vis.on10 b a2) ∧
    apply_visitor2 vis (ofAlt1 b) (ofAlt1 b2) = some (vis.on11 b b2) ∧
    apply_visitor2 vis (ofAlt1 b) (ofAlt2 c2) = some (vis.on12 b c2) ∧
    apply_visitor2 vis (ofAlt2 c) (ofAlt0 a2) = some (vis.on20 c a2) ∧
    apply_visitor2 vis (ofAlt2 c) (ofAlt1 b2) = some (vis.on21 c b2) ∧
    apply_visitor2 vis (ofAlt2 c) (ofAlt2 c2) = some (vis.on22 c c2) :=
  ⟨rfl, rfl, rfl, rfl, rfl, rfl, rfl, rfl, rfl⟩

/-- C10: after a variant is used as the source of a move construction or a move
assignment, its discriminator is unchanged and its storage still holds a live
instance of the same alternative: the donor stays a well-formed variant of the
same alternative, and the constructed or assigned-to variant carries the
source's tag. -/
theorem move_preserves_source_tag (mvA : α → α) (mvB : β → β) (mvC : γ → γ)
    (self other : Variant α β γ) (hs : WF self) (ho : WF other) :
    (∃ p, moveCtorOp mvA mvB mvC other = some p ∧
       which p.2 = which other ∧ WF p.2 ∧ p.2.storage.idx = other.storage.idx ∧
       which p.1 = which other ∧ WF p.1) ∧
    (∃ q, moveAssignOp mvA mvB mvC self other = some q ∧
       which q.2 = which other ∧ WF q.2 ∧ q.2.storage.idx = other.storage.idx ∧
       which q.1 = which other ∧ WF q.1) := by
  obtain ⟨s, t⟩ := self
  obtain ⟨s2, t2⟩ := other
  simp only [WF, Storage.idx] at hs ho
  subst hs
  subst ho
  cases s <;> cases s2 <;>
    exact ⟨⟨_, rfl, rfl, rfl, rfl, rfl, rfl⟩, ⟨_, rfl, rfl, rfl, rfl, rfl, rfl⟩⟩

/-- Witness for C10 at concrete variants over Bool, Int, String, with identity
move residues for Bool and Int and the emptied string as the moved-from
string. -/
theorem move_preserves_source_tag_witness :
    WF (ofAlt0 true : Variant Bool Int String) ∧
    WF (ofAlt2 "a" : Variant Bool Int String) ∧
    ((∃ p, moveCtorOp id id (fun _ => "") (ofAlt2 "a" : Variant Bool Int String) = some p ∧
        which p.2 = which (ofAlt2 "a" : Variant Bool Int String) ∧ WF p.2 ∧
        p.2.storage.idx = (Storage.alt2 "a" : Storage Bool Int String).idx ∧
        which p.1 = which (ofAlt2 "a" : Variant Bool Int String) ∧ WF p.1) ∧
     (∃ q, moveAssignOp id id (fun _ => "") (ofAlt0 true : Variant Bool Int String)
          (ofAlt2 "a") = some q ∧
        which q.2 = which (ofAlt2 "a" : Variant Bool Int String) ∧ WF q.2 ∧
        q.2.storage.idx = (Storage.alt2 "a" : Storage Bool Int String).idx ∧
        which q.1 = which (ofAlt2 "a" : Variant Bool Int String) ∧ WF q.1)) :=
  ⟨rfl, rfl,
   move_preserves_source_tag id id (fun _ => "") (ofAlt0 true) (ofAlt2 "a") rfl rfl⟩

section RecursiveWrapperModel

variable {T : Type}

/-- A heap of values of type T with an allocation counter: models the
unique_ptr allocations owned by recursive wrappers.  Addresses at or past
next have never been handed out. -/
structure Heap (T : Type) : Type where
  next : Nat
  mem : Nat → Option T

/-- Heap consistency: unallocated addresses hold nothing. -/
def Heap.WFh (h : Heap T) : Prop := ∀ p, h.next ≤ p → h.mem p = none

/-- new T(x): allocate a fresh cell holding x and return its address. -/
def Heap.alloc (h : Heap T) (x : T) : Nat × Heap T :=
  (h.next, ⟨h.next + 1, fun p => if p = h.next then some x else h.mem p⟩)

/-- Dereference a pointer. -/
def Heap.read (h : Heap T) (p : Nat) : Option T := h.mem p

/-- Assign through a pointer. -/
def Heap.write (h : Heap T) (p : Nat) (x : T) : Heap T :=
  ⟨h.next, fun q => if q = p then some x else h.mem q⟩

/-- detail::recursive_wrapper (lines 125-191): the exclusive owner of one
heap-allocated T; the field is the address held by its unique_ptr item. -/
structure RecursiveWrapper : Type where
  item : Nat

/-- recursive_wrapper(const recursive_wrapper& other), lines 141-143:
item(new T(other.get())), a deep copy into a fresh allocation. -/
def rwCopyCtor (h : Heap T) (other : RecursiveWrapper) : Option (RecursiveWrapper × Heap T) :=
  (h.read other.item).map (fun v => (⟨(h.alloc v).1⟩, (h.alloc v).2))

/-- operator=(const recursive_wrapper& rhs), lines 149-153: assign(rhs.get()),
that is *item = rhs.get(): the source's value is written through the
destination's existing pointer; no allocation takes place.  Defined when both
pointers are live. -/
def rwCopyAssign (h : Heap T) (self rhs : RecursiveWrapper) : Option (Heap T) :=
  match h.read rhs.item, h.read self.item with
  | some v, some _ => some (h.write self.item v)
  | _, _ => none

/-- get (lines 170-174): the wrapped value. -/
def rwGet (h : Heap T) (w : RecursiveWrapper) : Option T := h.read w.item

/-- operator=(const T& rhs) (lines 158-162): assign a new wrapped value in
place, used to model mutating the wrapped value. -/
def rwSetVal (h : Heap T) (w : RecursiveWrapper) (x : T) : Option (Heap T) :=
  (h.read w.item).map (fun _ => h.write w.item x)

end RecursiveWrapperModel

/-- Bundles the deep-copy conclusion for the recursive wrapper: copy
construction allocates a fresh cell, distinct from the source's, holding an
equal value; copy assignment writes an equal value through the destination's
existing, distinct pointer without allocating; and in both cases mutating the
destination's wrapped value afterwards leaves the source's wrapped value
unchanged. -/
def DeepCopySpec {T : Type} (h : Heap T) (other : RecursiveWrapper) (v : T) : Prop :=
  (∃ w h2, rwCopyCtor h other = some (w, h2) ∧
     w.item ≠ other.item ∧
     rwGet h2 w = some v ∧ rwGet h2 other = some v ∧
     (∀ x : T, rwSetVal h2 w x = some (Heap.write h2 w.item x) ∧
        rwGet (Heap.write h2 w.item x) w = some x ∧
        rwGet (Heap.write h2 w.item x) other = some v)) ∧
  (∀ (self : RecursiveWrapper) (v0 : T), self.item ≠ other.item →
     Heap.read h self.item = some v0 →
     rwCopyAssign h self other = some (Heap.write h self.item v) ∧
     (Heap.write h self.item v).next = h.next ∧
     rwGet (Heap.write h self.item v) self = some v ∧
     rwGet (Heap.write h self.item v) other = some v ∧
     (∀ x : T, rwSetVal (Heap.write h self.item v) self x =
          some (Heap.write (Heap.write h self.item v) self.item x) ∧
        rwGet (Heap.write (Heap.write h self.item v) self.item x) self = some x ∧
        rwGet (Heap.write (Heap.write h self.item v) self.item x) other = some v))

/-- C9 (amended): copy construction of the recursive wrapper deep-copies into a
fresh heap allocation; copy assignment deep-copies the source's value into the
destination's existing, distinct allocation, performing no new allocation; in
both cases the destination's get() compares equal to the source's get(), and
subsequently mutating the destination's wrapped value never affects the
source's wrapped value. -/
theorem recursive_wrapper_deep_copy {T : Type} (h : Heap T) (other : RecursiveWrapper) (v : T)
    (hwf : Heap.WFh h) (hv : Heap.read h other.item = some v) :
    DeepCopySpec h other v := by
  have hlt : other.item < h.next := by
    by_contra hge
    rw [Heap.read, hwf other.item (by omega)] at hv
    cases hv
  have hne : other.item ≠ h.next := Nat.ne_of_lt hlt
  constructor
  · refine ⟨⟨h.next⟩, (h.alloc v).2, ?_, ?_, ?_, ?_, ?_⟩
    · simp [rwCopyCtor, Heap.read] at hv ⊢
      simp [hv, Heap.alloc]
    · simpa using hne.symm
    · simp [rwGet, Heap.read, Heap.alloc]
    · simp only [rwGet, Heap.read, Heap.alloc]
      rw [if_neg hne]
      exact hv
    · intro x
      refine ⟨?_, ?_, ?_⟩
      · simp [rwSetVal, rwGet, Heap.read, Heap.alloc, Heap.write]
      · simp [rwGet, Heap.read, Heap.write]
      · simp only [rwGet, Heap.read, Heap.write, Heap.alloc]
        rw [if_neg hne, if_neg hne]
        exact hv
  · intro self v0 hne2 hv0
    refine ⟨?_, rfl, ?_, ?_, ?_⟩
    · simp only [rwCopyAssign, hv, hv0]
    · simp [rwGet, Heap.read, Heap.write]
    · simp only [rwGet, Heap.read, Heap.write]
      rw [if_neg hne2.symm]
      exact hv
    · intro x
      refine ⟨?_, ?_, ?_⟩
      · simp [rwSetVal, rwGet, Heap.read, Heap.write]
      · simp [rwGet, Heap.read, Heap.write]
      · simp only [rwGet, Heap.read, Heap.write]
        rw [if_neg hne2.symm, if_neg hne2.symm]
        exact hv

/-- A concrete two-cell heap of Nat values: address 0 holds 10, address 1
holds 20, the allocation counter stands at 2. -/
def h0cex : Heap Nat :=
  ⟨2, fun p => match p with | 0 => some 10 | 1 => some 20 | _ => none⟩

theorem h0cex_wfh : Heap.WFh h0cex := by
  intro p hp
  have h2 : 2 ≤ p := hp
  obtain ⟨n, rfl⟩ : ∃ n, p = n + 2 := ⟨p - 2, by omega⟩
  rfl

/-- Counterexample to C9 as stated: copy assignment of the recursive wrapper
does not give the destination a fresh heap allocation.  Assigning the wrapper
at address 1 to the wrapper at address 0 in the concrete two-cell heap leaves
the allocation counter at 2 (nothing was allocated) and the destination still
owns its pre-existing address 0, not the would-be fresh address 2. -/
theorem recursive_wrapper_fresh_alloc_cex :
    rwCopyAssign h0cex ⟨0⟩ ⟨1⟩ = some (Heap.write h0cex 0 20) ∧
    (Heap.write h0cex 0 20).next = h0cex.next ∧
    h0cex.next = 2 ∧
    (⟨0⟩ : RecursiveWrapper).item ≠ 2 :=
  ⟨rfl, rfl, rfl, by decide⟩

/-- Witness for C9's amended theorem at the concrete two-cell heap, copying the
wrapper that owns address 1 and value 20. -/
theorem recursive_wrapper_deep_copy_witness :
    Heap.WFh h0cex ∧ Heap.read h0cex (1 : Nat) = some 20 ∧
    DeepCopySpec h0cex ⟨1⟩ 20 :=
  ⟨h0cex_wfh, rfl, recursive_wrapper_deep_copy h0cex ⟨1⟩ 20 h0cex_wfh rfl⟩

/-- The scalar and string types used to exercise the value constructor's
overload resolution. -/
inductive CppTy : Type where
  | tbool
  | tint
  | tdouble
  | tstring
deriving DecidableEq, Fintype

/-- Implicit-conversion rank from an argument of type x to a parameter of
alternative type t, as C++ overload resolution ranks the viable candidates of
the value constructor's overload set: 2 for an exact match, 1 for a standard
conversion (the boolean, integral and floating-integral conversions among
bool, int and double), none when no implicit conversion exists. -/
def convRank (x t : CppTy) : Option Nat :=
  if x = t then some 2
  else
    match x, t with
    | .tbool, .tint => some 1
    | .tbool, .tdouble => some 1
    | .tint, .tbool => some 1
    | .tint, .tdouble => some 1
    | .tdouble, .tbool => some 1
    | .tdouble, .tint => some 1
    | _, _ => none

/-- Conversion rank of the alternative at index i of the declared list
t0, t1, t2 against argument type x. -/
def rankAt (t0 t1 t2 x : CppTy) : Nat → Option Nat
  | 0 => convRank x t0
  | 1 => convRank x t1
  | 2 => convRank x t2
  | _ => none

/-- Overload resolution across the initializer overload set (lines 440-464),
as invoked by the value constructor (lines 255-261): gather the viable
alternatives with their conversion ranks, keep those of maximal rank, and
succeed exactly when a single candidate remains.  No viable candidate, or an
ambiguity between equally ranked best candidates, is the compile error the
comment at lines 258-259 describes. -/
def resolveOverload3 (t0 t1 t2 x : CppTy) : Option Nat :=
  let cands := List.filterMap (fun p => Option.map (fun r => (p.1, r)) p.2)
    [((0 : Nat), convRank x t0), (1, convRank x t1), (2, convRank x t2)]
  let best := List.foldl (fun m p => Nat.max m p.2) 0 cands
  match List.filter (fun p => p.2 == best) cands with
  | [p] => some p.1
  | _ => none

/-- Follows the spec's words, for comparison with resolveOverload3: select the
first declared alternative to which the argument is implicitly convertible;
reject when there is none, or when more than one equally-ranked candidate
exists. -/
def specSelect3 (t0 t1 t2 x : CppTy) : Option Nat :=
  let r0 := convRank x t0
  let r1 := convRank x t1
  let r2 := convRank x t2
  if (r0.isSome && r0 == r1) || (r0.isSome && r0 == r2) || (r1.isSome && r1 == r2) then none
  else if r0.isSome then some 0
  else if r1.isSome then some 1
  else if r2.isSome then some 2
  else none

/-- Index i is the unique best-ranked viable alternative for argument x. -/
abbrev uniqueBest (t0 t1 t2 x : CppTy) (i : Nat) : Prop :=
  i < 3 ∧ (rankAt t0 t1 t2 x i).isSome ∧
  ∀ j, j < 3 → j ≠ i → (rankAt t0 t1 t2 x j).isSome →
    (rankAt t0 t1 t2 x j).getD 0 < (rankAt t0 t1 t2 x i).getD 0

/-- Characterization of the resolution outcome: resolution returns an index
exactly when it is the unique best-ranked viable candidate, and rejects
(compile error) exactly when no such candidate exists, covering both the
no-viable-alternative case and an ambiguous tie. -/
def ResolveSound (t0 t1 t2 x : CppTy) : Prop :=
  (resolveOverload3 t0 t1 t2 x = none ∨ resolveOverload3 t0 t1 t2 x = some 0 ∨
   resolveOverload3 t0 t1 t2 x = some 1 ∨ resolveOverload3 t0 t1 t2 x = some 2) ∧
  (∀ i, i < 3 → resolveOverload3 t0 t1 t2 x = some i → uniqueBest t0 t1 t2 x i) ∧
  (∀ i, i < 3 → resolveOverload3 t0 t1 t2 x = none → ¬ uniqueBest t0 t1 t2 x i)

instance resolveSoundDec (t0 t1 t2 x : CppTy) : Decidable (ResolveSound t0 t1 t2 x) := by
  have d1 : Decidable (resolveOverload3 t0 t1 t2 x = none ∨
      resolveOverload3 t0 t1 t2 x = some 0 ∨
      resolveOverload3 t0 t1 t2 x = some 1 ∨ resolveOverload3 t0 t1 t2 x = some 2) := by
    infer_instance
  have d2 : Decidable (∀ i, i < 3 → resolveOverload3 t0 t1 t2 x = some i →
      uniqueBest t0 t1 t2 x i) := by
    infer_instance
  have d3 : Decidable (∀ i, i < 3 → resolveOverload3 t0 t1 t2 x = none →
      ¬ uniqueBest t0 t1 t2 x i) := by
    infer_instance
  exact @instDecidableAnd _ _ d1 (@instDecidableAnd _ _ d2 d3)

/-- Counterexample to C5 as stated: with declared alternatives double, int,
string and an argument of type int, the argument is implicitly convertible
both to double (conversion rank) and to int (exact-match rank), the two
candidates are not equally ranked, and resolution selects the exact match at
index 1 rather than the first convertible alternative at index 0 that the
claim prescribes. -/
theorem first_convertible_cex :
    convRank .tint .tdouble = some 1 ∧ convRank .tint .tint = some 2 ∧
    resolveOverload3 .tdouble .tint .tstring .tint = some 1 ∧
    specSelect3 .tdouble .tint .tstring .tint = some 0 := by
  decide

/-- C5 (amended): construction from a non-variant value selects the alternative
by overload resolution over the initializer overload set: the unique
best-ranked alternative under implicit-conversion ranking when one exists;
otherwise (no viable alternative, or an ambiguous tie) the construction is
rejected at compile time rather than producing a runtime error.  On success
the chosen alternative is constructed and the discriminator is set to that
alternative's index, as the initializer cases do. -/
theorem overload_resolution_unique_best :
    (∀ t0 t1 t2 x : CppTy, ResolveSound t0 t1 t2 x) ∧
    (∀ a : α, which (ofAlt0 a : Variant α β γ) = 0) ∧
    (∀ b : β, which (ofAlt1 b : Variant α β γ) = 1) ∧
    (∀ c : γ, which (ofAlt2 c : Variant α β γ) = 2) :=
  ⟨by decide, fun a => rfl, fun b => rfl, fun c => rfl⟩

/-- Witness for C5's amended theorem: the resolution outcome for alternatives
double, int, string against an int argument satisfies the characterization,
and the discriminator of a variant built at alternative 1 is 1. -/
theorem overload_resolution_unique_best_witness :
    ResolveSound .tdouble .tint .tstring .tint ∧
    which (ofAlt1 (5 : Int) : Variant Bool Int String) = 1 :=
  ⟨(overload_resolution_unique_best (α := Bool) (β := Int) (γ := String)).1
     .tdouble .tint .tstring .tint,
   (overload_resolution_unique_best (α := Bool) (β := Int) (γ := String)).2.2.1 5⟩

end BrokerVariant
